import Mathlib

/-!
Shallow embedding of the objectdb embedded document database (Go sources:
the engine file of package `objectdb` and `fts/fts.go`).

Modelling conventions:
* Go `map[string]interface{}` documents are modelled as association lists
  (`FieldList`); Go map iteration order (unspecified in Go) is modelled as
  list order.
* JSON numbers (Go `float64`) are modelled at integer precision (`Int`);
  no claim settled here depends on fractional values, and
  `strconv.ParseFloat` is correspondingly modelled on integer literals.
* The pebble key-value stores are modelled as association lists from key
  strings to values; pebble's ordered byte-wise key iteration is modelled
  by sorting the association list by key at scan time.
* `fmt.Sprintf` with verb `v` is modelled by `toGoString` (Go renders `nil`
  as `<nil>`, booleans as `true`/`false`, maps as `map[k:v ...]` with keys
  sorted, slices as `[e1 e2]`).
* Go standard string functions are re-implemented over character lists so
  that the kernel can evaluate them (`goSplit` is `strings.Split` with a
  one-character separator, `goToLower` is `strings.ToLower` at the ASCII
  level, `tokenize` uses `Char.isAlpha`/`Char.isDigit` for the Unicode
  letter/number classes).
* The Snowball English stemmer is an external library
  (`github.com/kljensen/snowball`), not code of this repository; it is
  modelled as an explicit function parameter `stem`.
* `uuid.New().String()` is external; the generated id is an explicit
  parameter of `insertOne`.
* A Go runtime panic is modelled by `Option`/a dedicated outcome
  constructor (`none` / `.panicked` means the operation panics).
-/

namespace ObjectDB

mutual

/-- A JSON-shaped dynamic value, as produced by `encoding/json` unmarshalling
into `interface{}`: null, boolean, number, string, array, or nested
object. -/
inductive Value where
  | null
  | bool (b : Bool)
  | num (n : Int)
  | str (s : String)
  | arr (elems : ValueList)
  | obj (fields : FieldList)

/-- The elements of a JSON array (Go `[]interface{}`). -/
inductive ValueList where
  | nil
  | cons (v : Value) (rest : ValueList)

/-- The entries of a JSON object (Go `map[string]interface{}`), modelled as
an association list. -/
inductive FieldList where
  | nil
  | cons (key : String) (value : Value) (rest : FieldList)

end

/-- A document: Go `type Document map[string]interface{}`. -/
abbrev Document := FieldList

/-- Build a `FieldList` from an ordinary list (literal convenience). -/
def FieldList.ofList : List (String × Value) → FieldList
  | [] => .nil
  | (k, v) :: rest => .cons k v (FieldList.ofList rest)

/-- Build a `ValueList` from an ordinary list (literal convenience). -/
def ValueList.ofList : List Value → ValueList
  | [] => .nil
  | v :: rest => .cons v (ValueList.ofList rest)

/-!  Reducible models of the Go standard library string functions. -/

/-- Go `strings.Split(s, sep)` for a one-character separator (the code only
splits on `","`, `"."` and `":"`). Note `strings.Split("", sep) = [""]`. -/
def goSplit (s : String) (sep : Char) : List String :=
  go s.toList []
where
  go : List Char → List Char → List String
    | [], cur => [String.mk cur.reverse]
    | c :: cs, cur =>
      if c = sep then String.mk cur.reverse :: go cs []
      else go cs (c :: cur)

/-- Go `strings.ToLower`, at the ASCII level. -/
def goToLower (s : String) : String :=
  String.mk (s.toList.map Char.toLower)

/-- Parse a non-empty all-digit character list. -/
def digitsToNat? (l : List Char) : Option Nat :=
  match l with
  | [] => none
  | _ => go l 0
where
  go : List Char → Nat → Option Nat
    | [], acc => some acc
    | c :: cs, acc => if c.isDigit then go cs (acc * 10 + (c.toNat - 48)) else none

/-- Byte-wise string order (pebble's key order, and the order Go `fmt` uses
to sort map keys), as a Boolean. -/
def strLe (a b : String) : Bool :=
  go a.toList b.toList
where
  go : List Char → List Char → Bool
    | [], _ => true
    | _ :: _, [] => false
    | c :: cs, d :: ds =>
      if c.val < d.val then true
      else if d.val < c.val then false
      else go cs ds

/-- Insertion sort of key-tagged pairs by byte-wise key order. -/
def insertSorted (p : String × α) : List (String × α) → List (String × α)
  | [] => [p]
  | q :: rest => if strLe p.1 q.1 then p :: q :: rest else q :: insertSorted p rest

/-- Sort an association list by key. -/
def sortByKey (l : List (String × α)) : List (String × α) :=
  l.foldr insertSorted []

mutual

/-- Go `fmt.Sprintf` with verb `v` on a dynamic value: `nil` renders as
`<nil>`, booleans as `true`/`false`, numbers in decimal, strings as
themselves, slices as `[e1 e2]`, maps as `map[k1:v1 k2:v2]` with keys
sorted. -/
def toGoString : Value → String
  | .null => "<nil>"
  | .bool b => if b then "true" else "false"
  | .num n => toString n
  | .str s => s
  | .arr elems => "[" ++ String.intercalate " " (renderElems elems) ++ "]"
  | .obj fields =>
      "map[" ++
        String.intercalate " "
          ((sortByKey (renderFields fields)).map (fun p => p.1 ++ ":" ++ p.2)) ++
      "]"

/-- Render each element of a slice. -/
def renderElems : ValueList → List String
  | .nil => []
  | .cons v rest => toGoString v :: renderElems rest

/-- Render each entry of a map as a (key, rendered value) pair. -/
def renderFields : FieldList → List (String × String)
  | .nil => []
  | .cons k v rest => (k, toGoString v) :: renderFields rest

end

/-- Go map lookup returning an `Option`. -/
def lookupField (fields : FieldList) (key : String) : Option Value :=
  match fields with
  | .nil => none
  | .cons k v rest => if k = key then some v else lookupField rest key

/-- Go map assignment `m[key] = value` (overwrite or append). -/
def mapSet (fields : FieldList) (key : String) (value : Value) : FieldList :=
  match fields with
  | .nil => .cons key value .nil
  | .cons k v rest =>
    if k = key then .cons k value rest else .cons k v (mapSet rest key value)

/-- Source `buildPathValue(path, value) = fmt.Sprintf("%s=%v", path, value)`. -/
def buildPathValue (path : String) (value : Value) : String :=
  path ++ "=" ++ toGoString value

mutual

/-- The range loop of the source `getPathValues(document, prefix)`. The Go
function first does `delete(document, "_id")` and then ranges over the
map; deleting the `_id` entry before ranging is modelled by skipping
`_id` entries while ranging. -/
def pathValuesGo : FieldList → String → List String
  | .nil, _ => []
  | .cons key value rest, pfx =>
    if key == "_id" then pathValuesGo rest pfx
    else pathValuesEntry value key pfx ++ pathValuesGo rest pfx

/-- The switch body of `getPathValues` for one entry: a nested map recurses
with the nested map's own key as the whole new prefix (the old prefix is
discarded); a slice contributes nothing; any other value emits
`buildPathValue` on the (possibly prefixed) key. -/
def pathValuesEntry : Value → String → String → List String
  | .obj fields, key, _ => pathValuesGo fields key
  | .arr _, _, _ => []
  | v, key, pfx =>
    [buildPathValue (if pfx ≠ "" then pfx ++ "." ++ key else key) v]

end

/-- Source `getPathValues(document, prefix)`. -/
def getPathValues (document : Document) (pfx : String) : List String :=
  pathValuesGo document pfx

/-- Source `getValueFromPath(document, path)`: successive map lookup along
the dot-separated path. A Go map lookup of a missing key yields `nil`
(indistinguishable from a stored JSON null), modelled as `Value.null`; a
non-map segment with path parts still to consume returns `(nil, false)`,
modelled as `none`. -/
def getValueFromPath (document : Document) (path : String) : Option Value :=
  go (Value.obj document) (goSplit path '.')
where
  go : Value → List String → Option Value
    | v, [] => some v
    | .obj fields, part :: rest => go ((lookupField fields part).getD Value.null) rest
    | _, _ :: _ => none

/-- Source comparison operator constant `EQ`. -/
def EQ : String := "="

/-- Source constant `NE`. -/
def NE : String := "!="

/-- Source constant `GT`. -/
def GTop : String := ">"

/-- Source constant `GTE`. -/
def GTEop : String := ">="

/-- Source constant `LT`. -/
def LTop : String := "<"

/-- Source constant `LTE`. -/
def LTEop : String := "<="

/-- A query condition (source `type Condition struct`). -/
structure Condition where
  path : String
  operator : String
  value : Value

/-- One top-level query group (source anonymous struct in `type Query`). -/
structure QueryGroup where
  operator : String
  operands : List Condition

/-- Source `type Query []struct ..`; the top level is implicitly ANDed. -/
abbrev Query := List QueryGroup

/-- Go `strconv.ParseFloat(s, 64)`, modelled at integer precision: only
integer literals (optional leading minus sign, then digits) parse. -/
def goParseFloat (s : String) : Option Int :=
  match s.toList with
  | '-' :: rest => (digitsToNat? rest).map (fun n => -(n : Int))
  | l => (digitsToNat? l).map (fun n => (n : Int))

/-- The numeric coercion switch of `matchCondition`: native numbers pass
through, strings are parsed, everything else falls to `default` (false). -/
def coerceNumeric : Value → Option Int
  | .num n => some n
  | .str s => goParseFloat s
  | _ => none

/-- Source `matchCondition(document, condition)`. -/
def matchCondition (document : Document) (condition : Condition) : Bool :=
  match getValueFromPath document condition.path with
  | none => false
  | some value =>
    if condition.operator = EQ then toGoString value == toGoString condition.value
    else if condition.operator = NE then toGoString value != toGoString condition.value
    else
      match goParseFloat (toGoString condition.value) with
      | none => false
      | some right =>
        match coerceNumeric value with
        | none => false
        | some left =>
          if condition.operator = GTop then decide (left > right)
          else if condition.operator = GTEop then decide (left ≥ right)
          else if condition.operator = LTop then decide (left < right)
          else if condition.operator = LTEop then decide (left ≤ right)
          else false

/-- Source `matchQuery(document, query)`: every top-level group must hold;
an OR group needs one matching condition, any other group needs all. -/
def matchQuery (document : Document) (query : Query) : Bool :=
  query.all (fun g =>
    if g.operator = "OR" then g.operands.any (fun c => matchCondition document c)
    else g.operands.all (fun c => matchCondition document c))

/-- A pebble store whose values are raw byte strings (the two index stores
hold comma-joined id lists as raw strings). -/
abbrev KV := List (String × String)

/-- `pebble.Get`: `none` models `ErrNotFound`. -/
def kvGet (kv : List (String × α)) (key : String) : Option α :=
  match kv with
  | [] => none
  | (k, v) :: rest => if k = key then some v else kvGet rest key

/-- `pebble.Get` with a default for the not-found case (the Go code reads
the returned byte slice, which is empty on `ErrNotFound`). -/
def kvGetD (kv : List (String × α)) (key : String) (dflt : α) : α :=
  (kvGet kv key).getD dflt

/-- `pebble.Set`: overwrite the key if present, else add it. -/
def kvSet (kv : List (String × α)) (key : String) (value : α) : List (String × α) :=
  match kv with
  | [] => [(key, value)]
  | (k, v) :: rest => if k = key then (k, value) :: rest else (k, v) :: kvSet rest key value

/-- `pebble.Delete`. -/
def kvDelete (kv : List (String × α)) (key : String) : List (String × α) :=
  kv.filter (fun p => !(p.1 == key))

/-- Source `getDocumentKey(collectionName, id)`. -/
def getDocumentKey (collectionName id : String) : String :=
  collectionName ++ ":" ++ id

/-- Source `getIndexKey(collectionName, pathValue)`; `fts.getIndexKey` is the
same concatenation with a token in place of the path-value. -/
def getIndexKey (collectionName pathValue : String) : String :=
  collectionName ++ ":" ++ pathValue

/-!  Full-text search component (`fts/fts.go`). -/

/-- `fts.tokenize`: `strings.FieldsFunc` splitting on any rune that is not a
letter and not a number (Unicode classes in Go, modelled here at the
ASCII level); empty fragments are dropped. -/
def tokenize (text : String) : List String :=
  go text.toList []
where
  go : List Char → List Char → List String
    | [], cur => if cur.isEmpty then [] else [String.mk cur.reverse]
    | c :: cs, cur =>
      if c.isAlpha || c.isDigit then go cs (c :: cur)
      else if cur.isEmpty then go cs []
      else String.mk cur.reverse :: go cs []

/-- `fts.lowercaseFilter`. -/
def lowercaseFilter (tokens : List String) : List String :=
  tokens.map goToLower

/-- `fts.stopwordFilter`: drops the built-in English stop words. -/
def stopwordFilter (tokens : List String) : List String :=
  tokens.filter (fun token =>
    !(["a", "and", "be", "have", "i", "in", "of", "that", "the", "to"].contains token))

/-- `fts.stemmerFilter`: each token is replaced by its Snowball English stem.
The stemmer (`github.com/kljensen/snowball/english`) is an external
library, passed here as the function `stem`. -/
def stemmerFilter (stem : String → String) (tokens : List String) : List String :=
  tokens.map stem

/-- `fts.analyze`: tokenize, lowercase, stop-word filter, stem. -/
def analyze (stem : String → String) (text : String) : List String :=
  stemmerFilter stem (stopwordFilter (lowercaseFilter (tokenize text)))

/-- `fts.intersection(a, b)`: membership set built from `a`, then the
elements of `b` found in it, in `b`'s order. -/
def intersection (a b : List String) : List String :=
  b.filter (fun item => a.contains item)

/-- The raw posting-list string a token resolves to in the inverted index
(`fts.textIndex.Get`, with the empty string for `ErrNotFound`). -/
def posting (textIndex : KV) (collectionName token : String) : String :=
  kvGetD textIndex (getIndexKey collectionName token) ""

/-- The token loop of `fts.Search`: an empty (or absent) posting list is
skipped; the `len(matchedIds) == 0` re-check makes the first non-empty
list initialise `matchedIds` and also restarts it after an intersection
came out empty; otherwise the next list is intersected in. -/
def searchLoop (textIndex : KV) (collectionName : String) :
    List String → List String → List String
  | matchedIds, [] => matchedIds
  | matchedIds, token :: rest =>
    let idsString := posting textIndex collectionName token
    if idsString.length == 0 then searchLoop textIndex collectionName matchedIds rest
    else
      let ids := goSplit idsString ','
      if matchedIds.length == 0 then searchLoop textIndex collectionName ids rest
      else searchLoop textIndex collectionName (intersection matchedIds ids) rest

/-- Source `fts.Search(collectionName, text)`: analyze the text and run the
token loop starting from the empty matched set. -/
def ftsSearch (stem : String → String) (textIndex : KV) (collectionName text : String) :
    List String :=
  searchLoop textIndex collectionName [] (analyze stem text)

/-- The posting-list append step shared by `indexDocument` and
`fts.AddToIndex`: a missing or empty list becomes the id itself, otherwise
the id is appended (comma-separated) unless already present; the value is
always written back. -/
def addIdToPosting (kv : KV) (key id : String) : KV :=
  let idsString := kvGetD kv key ""
  if idsString.length == 0 then kvSet kv key id
  else
    let ids := goSplit idsString ','
    if ids.contains id then kvSet kv key idsString
    else kvSet kv key (idsString ++ "," ++ id)

/-- The posting-list removal step of `fts.DeleteFromIndex`: a missing or
empty list is skipped (`continue`); otherwise every occurrence of the id
is removed, and the key is deleted when the list becomes empty. -/
def removeIdFromPosting (kv : KV) (key id : String) : KV :=
  let idsString := kvGetD kv key ""
  if idsString.length == 0 then kv
  else
    let newIds := (goSplit idsString ',').filter (fun existingId => existingId ≠ id)
    if newIds.isEmpty then kvDelete kv key
    else kvSet kv key (String.intercalate "," newIds)

/-- Source `fts.AddToIndex(collectionName, id, document)`: reflect over the
record's fields; a field whose `objectdb` tag contains `textIndex` has its
value asserted to string (`fieldValue.(string)` panics otherwise, modelled
by `none`), analyzed, and the id added under each token. The record is
modelled as its field list plus the set of tag-annotated field names. -/
def ftsAddToIndex (stem : String → String) (textIndex : KV) (collectionName id : String)
    (fields : FieldList) (textFields : List String) : Option KV :=
  match fields with
  | .nil => some textIndex
  | .cons name value rest =>
    if textFields.contains name then
      match value with
      | .str s =>
        let textIndex' := (analyze stem s).foldl
          (fun kv token => addIdToPosting kv (getIndexKey collectionName token) id) textIndex
        ftsAddToIndex stem textIndex' collectionName id rest textFields
      | _ => none
    else ftsAddToIndex stem textIndex collectionName id rest textFields

/-- Source `fts.DeleteFromIndex(collectionName, id, document)`: walks every
top-level field of the stored document; `reflect.TypeOf(fieldValue)` is
nil for a null field value, so the following `.Kind()` call panics
(modelled by `none`); non-string fields are skipped; each string field is
analyzed and the id removed from every token's posting list. -/
def ftsDeleteFromIndex (stem : String → String) (textIndex : KV) (collectionName id : String)
    (fields : FieldList) : Option KV :=
  match fields with
  | .nil => some textIndex
  | .cons _ value rest =>
    match value with
    | .null => none
    | .str s =>
      let textIndex' := (analyze stem s).foldl
        (fun kv token => removeIdFromPosting kv (getIndexKey collectionName token) id) textIndex
      ftsDeleteFromIndex stem textIndex' collectionName id rest
    | _ => ftsDeleteFromIndex stem textIndex collectionName id rest

/-!  The database proper. -/

/-- The three named error values of the package. -/
inductive DBErr where
  | DuplicateKey
  | NoDocuments
  | DocumentNotExists
deriving DecidableEq

/-- The state of `type DB struct`: primary store (documents), secondary
path-value index and inverted text index (raw comma-joined id strings). -/
structure DBState where
  store : List (String × Document)
  index : KV
  textIndex : KV

/-- A user record handed to `InsertOne`: its JSON-normalized field list plus
the names of the struct fields whose `objectdb` tag contains `textIndex`
(the reflection data consulted by `fts.AddToIndex`). -/
structure Record where
  doc : Document
  textFields : List String

/-- `Options` of `FindMany`; `Limit` is a Go `int`. -/
structure Options where
  limit : Int

/-- Source `FindOneById`: primary get, `ErrNotFound` becomes
`ErrDocumentNotExists`, otherwise the document is decoded. -/
def findOneById (st : DBState) (collectionName id : String) : Except DBErr Document :=
  match kvGet st.store (getDocumentKey collectionName id) with
  | none => .error .DocumentNotExists
  | some document => .ok document

/-- Source `indexDocument`: for each path-value of the document, append the
id to the posting list at the index key. -/
def indexDocument (index : KV) (collectionName id : String) (document : Document) : KV :=
  (getPathValues document "").foldl
    (fun kv pathValue => addIdToPosting kv (getIndexKey collectionName pathValue) id) index

/-- The loop of source `deleteDocumentFromIndex`: when a posting list is
missing or empty the function does `return nil`, ending the WHOLE loop
(not `continue`); otherwise every occurrence of the id is removed and the
key rewritten, or deleted when the list becomes empty. -/
def deleteFromIndexLoop (index : KV) (collectionName id : String) :
    List String → KV
  | [] => index
  | pathValue :: rest =>
    let indexKey := getIndexKey collectionName pathValue
    let idsString := kvGetD index indexKey ""
    if idsString.length == 0 then index
    else
      let newIds := (goSplit idsString ',').filter (fun existingId => existingId ≠ id)
      let index' :=
        if newIds.isEmpty then kvDelete index indexKey
        else kvSet index indexKey (String.intercalate "," newIds)
      deleteFromIndexLoop index' collectionName id rest

/-- Source `deleteDocumentFromIndex(collectionName, id, document)`. -/
def deleteDocumentFromIndex (index : KV) (collectionName id : String)
    (document : Document) : KV :=
  deleteFromIndexLoop index collectionName id (getPathValues document "")

mutual

/-- Go `getPathValues` mutates the caller's map: it deletes `_id` from the
document and, recursively, from every nested map it visits (maps inside
slices are not visited). `DeleteOneById` therefore hands
`fts.DeleteFromIndex` the document with the `_id` entries already gone. -/
def stripIdRec : FieldList → FieldList
  | .nil => .nil
  | .cons k v rest =>
    if k == "_id" then stripIdRec rest
    else .cons k (stripIdVal v) (stripIdRec rest)

/-- Apply the `_id` deletion inside a nested map value. -/
def stripIdVal : Value → Value
  | .obj fields => .obj (stripIdRec fields)
  | v => v

end

/-- Source `InsertOne(collectionName, document)`: the freshly generated uuid
is the explicit `id` parameter; the record is JSON-normalized (identity in
this model), gets `_id` set, is stored under the document key after a
duplicate check, then indexed (path-value index and text index).
`none` models the `fieldValue.(string)` panic of `fts.AddToIndex`. -/
def insertOne (st : DBState) (stem : String → String) (collectionName id : String)
    (record : Record) : Option (Except DBErr (String × DBState)) :=
  let documentMap := mapSet record.doc "_id" (Value.str id)
  let key := getDocumentKey collectionName id
  match kvGet st.store key with
  | some _ => some (.error .DuplicateKey)
  | none =>
    let store' := kvSet st.store key documentMap
    let index' := indexDocument st.index collectionName id documentMap
    match ftsAddToIndex stem st.textIndex collectionName id record.doc record.textFields with
    | none => none
    | some textIndex' =>
      some (.ok (id, { store := store', index := index', textIndex := textIndex' }))

/-- The outcome of `DeleteOneById`: a Go runtime panic, a returned error, or
success with the new database state. -/
inductive DeleteOutcome where
  | panicked
  | error (e : DBErr)
  | ok (st : DBState)

/-- Source `DeleteOneById(collectionName, id)`: re-read the document, remove
it from the path-value index (which as a side effect deletes the `_id`
entries from the in-memory map), remove it from the text index, then
delete the primary key. -/
def deleteOneById (st : DBState) (stem : String → String) (collectionName id : String) :
    DeleteOutcome :=
  match findOneById st collectionName id with
  | .error e => .error e
  | .ok document =>
    let index' := deleteDocumentFromIndex st.index collectionName id document
    let mutated := stripIdRec document
    match ftsDeleteFromIndex stem st.textIndex collectionName id mutated with
    | none => .panicked
    | some textIndex' =>
      .ok { store := kvDelete st.store (getDocumentKey collectionName id)
            index := index'
            textIndex := textIndex' }

/-!  `FindMany`: planner, index-assisted evaluation, full scan. -/

/-- The planner loop at the top of `FindMany`. Per group: if the operator is
`OR` and some operand is non-EQ, `fallbackToFullScan` is set (without
leaving the loop); then, for every group alike, if no operand is EQ,
`fallbackToFullScan` is set and the loop breaks. -/
def fallbackLoop : Query → Bool → Bool
  | [], fb => fb
  | g :: rest, fb =>
    let fb1 :=
      if g.operator = "OR" ∧ g.operands.any (fun c => !(c.operator == EQ)) then true else fb
    if g.operands.any (fun c => c.operator == EQ) then fallbackLoop rest fb1
    else true

/-- Source: the `fallbackToFullScan` flag as it stands after the planner
section of `FindMany`; an empty (or nil) query falls back directly. -/
def fallbackToFullScan (query : Query) : Bool :=
  if query.length > 0 then fallbackLoop query false else true

/-- Increment the count of an id in the counting map
(`idsConditionCount[id]++`, inserting 0 first when absent); Go map
iteration order is modelled as insertion order. -/
def bumpCount (m : List (String × Nat)) (id : String) : List (String × Nat) :=
  match m with
  | [] => [(id, 1)]
  | (k, n) :: rest => if k = id then (k, n + 1) :: rest else (k, n) :: bumpCount rest id

/-- Insert an id into the `matchedIdsInOr` set (`map[string]bool`),
modelled as an insertion-ordered list without duplicates. -/
def insertOnce (l : List String) (id : String) : List String :=
  if l.contains id then l else l ++ [id]

/-- The index read of the evaluation phase: posting list at
`getIndexKey(collection, buildPathValue(path, fmt.Sprintf(value)))`, the
raw (possibly empty) string split on commas. Note `strings.Split("", ",")`
is `[""]`, so an absent posting list contributes the empty-string id. -/
def indexIdsFor (index : KV) (collectionName : String) (operand : Condition) : List String :=
  goSplit (kvGetD index (getIndexKey collectionName (buildPathValue operand.path operand.value)) "") ','

/-- The per-group counting phase of index-assisted `FindMany`: an OR group
adds 1 to `nonRangeConditionCount` and counts each id of the union of its
posting lists once; any other group adds 1 per EQ operand and counts each
id of each EQ operand's posting list. -/
def processGroups (index : KV) (collectionName : String) :
    Query → List (String × Nat) → Nat → List (String × Nat) × Nat
  | [], m, req => (m, req)
  | g :: rest, m, req =>
    if g.operator = "OR" then
      let matchedIdsInOr := g.operands.foldl
        (fun acc operand => (indexIdsFor index collectionName operand).foldl insertOnce acc) []
      processGroups index collectionName rest (matchedIdsInOr.foldl bumpCount m) (req + 1)
    else
      let step := g.operands.foldl
        (fun (acc : List (String × Nat) × Nat) operand =>
          if operand.operator = EQ then
            ((indexIdsFor index collectionName operand).foldl bumpCount acc.1, acc.2 + 1)
          else acc) (m, req)
      processGroups index collectionName rest step.1 step.2

/-- `idsConditionCount` and `nonRangeConditionCount` after the counting
phase. -/
def countsForQuery (index : KV) (collectionName : String) (query : Query) :
    List (String × Nat) × Nat :=
  processGroups index collectionName query [] 0

/-- `allMatchedIdsFromIndex`: the ids whose count equals
`nonRangeConditionCount`. -/
def indexCandidates (index : KV) (collectionName : String) (query : Query) : List String :=
  (((countsForQuery index collectionName query).1).filter
    (fun p => p.2 == (countsForQuery index collectionName query).2)).map Prod.fst

/-- The candidate verification loop: each candidate id is loaded
(`ErrDocumentNotExists` is tolerated, leaving a nil document), re-checked
against the whole query with `matchQuery`, and collected up to the limit
(`Limit = 0` means no limit). -/
def verifyCandidates (st : DBState) (collectionName : String) (query : Query) (limit : Int) :
    List String → List Document → List Document
  | [], documents => documents
  | id :: rest, documents =>
    let document :=
      match findOneById st collectionName id with
      | .error _ => FieldList.nil
      | .ok d => d
    if matchQuery document query then
      let documents' := documents ++ [document]
      if limit > 0 ∧ (documents'.length : Int) ≥ limit then documents'
      else verifyCandidates st collectionName query limit rest documents'
    else verifyCandidates st collectionName query limit rest documents

/-- The full-scan branch of `FindMany`: iterate the primary store in key
order, keep keys whose prefix before the first colon is the collection,
filter with `matchQuery`, stop at the limit. -/
def fullScanLoop (collectionName : String) (query : Query) (limit : Int) :
    List (String × Document) → List Document → List Document
  | [], documents => documents
  | (key, document) :: rest, documents =>
    if (goSplit key ':').headD "" ≠ collectionName then
      fullScanLoop collectionName query limit rest documents
    else if matchQuery document query then
      let documents' := documents ++ [document]
      if limit > 0 ∧ (documents'.length : Int) ≥ limit then documents'
      else fullScanLoop collectionName query limit rest documents'
    else fullScanLoop collectionName query limit rest documents

/-- Source `FindMany(collectionName, query, options)`. -/
def findMany (st : DBState) (collectionName : String) (query : Query) (options : Options) :
    List Document :=
  if fallbackToFullScan query then
    fullScanLoop collectionName query options.limit (sortByKey st.store) []
  else
    verifyCandidates st collectionName query options.limit
      (indexCandidates st.index collectionName query) []

/-- Source `FindOne`: `FindMany` with limit 1; an empty result is
`ErrNoDocuments`. -/
def findOne (st : DBState) (collectionName : String) (query : Query) :
    Except DBErr Document :=
  match findMany st collectionName query { limit := 1 } with
  | [] => .error .NoDocuments
  | document :: _ => .ok document

/-- Modelled from the spec (the reference evaluation of claim C1): iterate
the whole primary keyspace of the collection and apply the predicate
matcher to each document, with no limit. -/
def referenceFindMany (st : DBState) (collectionName : String) (query : Query) :
    List Document :=
  (((sortByKey st.store).filter
      (fun p => (goSplit p.1 ':').headD "" = collectionName)).map Prod.snd).filter
    (fun document => matchQuery document query)

/-!  Shared concrete states and lemmas for the claim theorems. -/

/-- The freshly opened database (all three stores empty). -/
def emptyDB : DBState := { store := [], index := [], textIndex := [] }

/-- A concrete instantiation of the external Snowball stemmer parameter; on
the short alphanumeric tokens used in the concrete scenarios below the
real stemmer is also the identity. -/
def idStem : String → String := fun s => s

/-- A value that `getPathValues` treats as a leaf (neither a nested document
nor an array). -/
def isScalarValue : Value → Bool
  | .obj _ => false
  | .arr _ => false
  | _ => true

theorem kvGet_kvSet_self (kv : List (String × α)) (key : String) (v : α) :
    kvGet (kvSet kv key v) key = some v := by
  induction kv with
  | nil => simp [kvSet, kvGet]
  | cons p rest ih =>
    by_cases h : p.1 = key <;> simp [kvSet, kvGet, h, ih]

/-- The single-condition query asking for `x = null`. -/
def nullEqQuery : Query :=
  [{ operator := "AND", operands := [{ path := "x", operator := "=", value := Value.null }] }]

/-- The single-condition query asking for `x = "1"`. -/
def strEqQuery : Query :=
  [{ operator := "AND", operands := [{ path := "x", operator := "=", value := Value.str "1" }] }]

/-- C1's failing input: a record whose normalized document is
`(a.k: 1, a: (k: 1), z: "w")` — the top-level key `a.k` literally contains
a dot, so the nested leaf produces the same path-value pair twice. -/
def dupPvRecord : Record :=
  { doc := FieldList.ofList
      [("a.k", Value.num 1),
       ("a", Value.obj (FieldList.ofList [("k", Value.num 1)])),
       ("z", Value.str "w")],
    textFields := [] }

/-- The stored form of `dupPvRecord` under id `d1`. -/
def dupPvDoc : Document :=
  FieldList.ofList
    [("a.k", Value.num 1),
     ("a", Value.obj (FieldList.ofList [("k", Value.num 1)])),
     ("z", Value.str "w"),
     ("_id", Value.str "d1")]

/-- The database state after inserting `dupPvRecord` into collection `c`
with id `d1` (checked below against `insertOne`). -/
def dupPvState : DBState :=
  { store := [("c:d1", dupPvDoc)],
    index := [("c:a.k=1", "d1"), ("c:z=w", "d1")],
    textIndex := [] }

/-- A stored document with a top-level null field. -/
def nullFieldDoc : Document :=
  FieldList.ofList [("f", Value.null), ("_id", Value.str "d1")]

/-- A reachable state holding `nullFieldDoc` in collection `c`. -/
def nullFieldState : DBState :=
  { store := [("c:d1", nullFieldDoc)],
    index := [("c:f=<nil>", "d1")],
    textIndex := [] }

/-- A depth-three nested document: a leaf under the keys `a`, `b`, `c`. -/
def depthThreeDoc : Document :=
  FieldList.ofList
    [("a", Value.obj (FieldList.ofList
      [("b", Value.obj (FieldList.ofList [("c", Value.num 1)]))]))]

/-!  Claim theorems. -/

/-- C1: the claim states that for every reachable state, `FindMany` with
limit 0 returns the same multiset of documents as a reference full scan
with `matchQuery`. The code refutes it: on the (trivially reachable)
empty database, the query `x = null` is index-eligible; the absent
posting list read comes back as the empty byte string, which
`strings.Split` turns into the one-element list containing the empty id;
that id's count (1) equals `nonRangeConditionCount` (1), so `""` becomes
a candidate; loading it yields `ErrDocumentNotExists`, tolerated with a
nil document, and `matchQuery(nil, x = null)` is true because the missing
key resolves to nil and `fmt` renders both sides as `<nil>`. `FindMany`
thus returns one nil document while the reference scan returns none. -/
theorem c1_findMany_diverges_from_reference :
    findMany emptyDB "c" nullEqQuery { limit := 0 } = [FieldList.nil]
    ∧ referenceFindMany emptyDB "c" nullEqQuery = []
    ∧ ¬ List.Perm (findMany emptyDB "c" nullEqQuery { limit := 0 })
        (referenceFindMany emptyDB "c" nullEqQuery) := by
  refine ⟨rfl, rfl, ?_⟩
  intro h
  have h1 : findMany emptyDB "c" nullEqQuery { limit := 0 } = [FieldList.nil] := rfl
  have h2 : referenceFindMany emptyDB "c" nullEqQuery = [] := rfl
  rw [h1, h2] at h
  exact absurd h.symm (by simp)

/-- C2 counterexample: the claim states a leaf at depth three under the
keys `a`, `b`, `c` yields the full dotted path `a.b.c`. On the code, the
recursion passes only the immediate parent key as the new prefix, so the
derived pair is `b.c=1` and no `a.b.c` pair exists. -/
theorem c2_depth_three_path_truncated :
    getPathValues depthThreeDoc "" = ["b.c=1"]
    ∧ ¬ ("a.b.c=1" ∈ getPathValues depthThreeDoc "") := by
  refine ⟨rfl, ?_⟩
  intro h
  have h1 : getPathValues depthThreeDoc "" = ["b.c=1"] := rfl
  rw [h1] at h
  simp at h

/-- C2 amended: each nested document contributes its children with only its
own (immediate parent) key as prefix — ancestor prefixes are discarded —
so a leaf at depth three under keys `a`, `b`, `c` yields the path `b.c`;
arrays contribute no path-value pairs. -/
theorem c2_amended_immediate_parent_prefix (a b c : String) (v : Value) (elems : ValueList)
    (ha : a ≠ "_id") (hb : b ≠ "_id") (hc : c ≠ "_id") (hb0 : b ≠ "")
    (hv : isScalarValue v = true) :
    getPathValues (FieldList.cons a (Value.obj (FieldList.cons b
        (Value.obj (FieldList.cons c v .nil)) .nil)) .nil) ""
      = [buildPathValue (b ++ "." ++ c) v]
    ∧ getPathValues (FieldList.cons a (Value.arr elems) .nil) "" = [] := by
  constructor
  · cases v <;>
      simp_all [getPathValues, pathValuesGo, pathValuesEntry, isScalarValue, ha, hb, hc, hb0]
  · simp [getPathValues, pathValuesGo, pathValuesEntry, ha]

/-- Witness for the C2 amended theorem at `a`, `b`, `c`, value 1. -/
theorem c2_amended_witness :
    getPathValues (FieldList.cons "a" (Value.obj (FieldList.cons "b"
        (Value.obj (FieldList.cons "c" (Value.num 1) .nil)) .nil)) .nil) ""
      = [buildPathValue ("b" ++ "." ++ "c") (Value.num 1)]
    ∧ getPathValues (FieldList.cons "a" (Value.arr .nil) .nil) "" = [] :=
  c2_amended_immediate_parent_prefix "a" "b" "c" (Value.num 1) .nil
    (by decide) (by decide) (by decide) (by decide) (by decide)

/-- C3 counterexample: the claim states that a missing key at the last path
segment makes the condition false for every operator and value, including
a null condition value. On the code, a missing last key resolves to nil
with `ok = true`, and `=` against a null condition value compares the
`fmt` renderings `<nil>` and `<nil>`, so the condition is TRUE on the
empty document. -/
theorem c3_missing_last_segment_matches_null :
    matchCondition FieldList.nil { path := "x", operator := "=", value := Value.null } = true :=
  rfl

/-- C3 amended: a condition is false whenever path resolution fails, which
on the code happens exactly when a non-map value (including the nil a
missing key yields) is reached with path segments still to consume; a key
missing at the LAST segment instead resolves to null and is compared
normally. -/
theorem c3_amended_resolution_failure_false (document : Document) (condition : Condition)
    (h : getValueFromPath document condition.path = none) :
    matchCondition document condition = false := by
  simp [matchCondition, h]

/-- Witness for the C3 amended theorem: path `a.b` fails on a document where
`a` is a string. -/
theorem c3_amended_witness :
    matchCondition (FieldList.cons "a" (Value.str "x") .nil)
      { path := "a.b", operator := ">", value := Value.num 5 } = false :=
  c3_amended_resolution_failure_false (FieldList.cons "a" (Value.str "x") .nil)
    { path := "a.b", operator := ">", value := Value.num 5 } rfl

/-- C4: the claim states that after a successful `DeleteOneById(C, d)`,
`FindOneById` reports `DocumentNotExists` and no secondary or inverted
posting list contains `d`. The code refutes the secondary part: the
document `(a.k: 1, a: (k: 1), z: "w")` derives the path-value `a.k=1`
twice (a dotted top-level key collides with a nested path), so during
deletion the second occurrence finds its posting list already deleted and
`deleteDocumentFromIndex` does `return nil` instead of `continue`,
skipping the remaining path-values: the delete reports success but `d1`
is still in the posting list at `c:z=w`. -/
theorem c4_delete_leaves_secondary_posting :
    insertOne emptyDB idStem "c" "d1" dupPvRecord = some (.ok ("d1", dupPvState))
    ∧ deleteOneById dupPvState idStem "c" "d1"
        = .ok { store := [], index := [("c:z=w", "d1")], textIndex := [] }
    ∧ findOneById { store := [], index := [("c:z=w", "d1")], textIndex := [] } "c" "d1"
        = .error .DocumentNotExists
    ∧ kvGet ([("c:z=w", "d1")] : KV) "c:z=w" = some "d1" :=
  ⟨rfl, rfl, rfl, rfl⟩

/-- C6: the claim states an absent secondary posting list is treated exactly
as the empty posting list during index-assisted evaluation, contributing
no ids, so no empty-string id is ever counted or becomes a candidate. The
code refutes it: `strings.Split("", ",")` is `[""]`, so the absent list
for `x = "1"` on an empty index makes the empty-string id reach count 1 =
`nonRangeConditionCount` and become a candidate. -/
theorem c6_absent_posting_counts_empty_id :
    countsForQuery [] "c" strEqQuery = ([("", 1)], 1)
    ∧ indexCandidates [] "c" strEqQuery = [""] :=
  ⟨rfl, rfl⟩

/-- C9: for every record accepted by `InsertOne` with returned id `d`, a
subsequent `FindOneById` returns the normalized record extended (with
overwrite) by `_id = d`: the stored bytes are the normalized map with
`_id` set, written under the document key, and `FindOneById` reads that
key back. -/
theorem c9_insert_then_find_roundtrip (st : DBState) (stem : String → String)
    (collectionName id : String) (record : Record) (st' : DBState)
    (h : insertOne st stem collectionName id record = some (.ok (id, st'))) :
    findOneById st' collectionName id = .ok (mapSet record.doc "_id" (Value.str id)) := by
  cases hk : kvGet st.store (getDocumentKey collectionName id) with
  | some v => simp [insertOne, hk] at h
  | none =>
    cases hf : ftsAddToIndex stem st.textIndex collectionName id record.doc record.textFields with
    | none => simp [insertOne, hk, hf] at h
    | some tIdx =>
      simp only [insertOne, hk, hf, Option.some.injEq, Except.ok.injEq, Prod.mk.injEq,
        true_and] at h
      subst h
      simp [findOneById, kvGet_kvSet_self]

/-- Witness for C9 at a concrete one-field record inserted into the empty
database. -/
theorem c9_insert_witness :
    findOneById
      { store := [("c:d1", FieldList.ofList [("name", Value.str "n"), ("_id", Value.str "d1")])],
        index := [("c:name=n", "d1")],
        textIndex := [] } "c" "d1"
      = .ok (mapSet (FieldList.ofList [("name", Value.str "n")]) "_id" (Value.str "d1")) :=
  c9_insert_then_find_roundtrip emptyDB idStem "c" "d1"
    { doc := FieldList.ofList [("name", Value.str "n")], textFields := [] } _ rfl

/-- C10: the claim states `DeleteOneById` terminates without a runtime panic
for every stored document, including one with a top-level null field. The
code refutes it: `fts.DeleteFromIndex` calls
`reflect.TypeOf(fieldValue).Kind()` on every top-level field value, and
`reflect.TypeOf` of a nil interface is nil, so the `.Kind()` call panics;
deleting a stored document with a null field panics. -/
theorem c10_delete_panics_on_null_field :
    deleteOneById nullFieldState idStem "c" "d1" = .panicked :=
  rfl

theorem fallbackLoop_eq_false (gs : Query) : ∀ fb : Bool,
    fallbackLoop gs fb = false ↔
      (fb = false ∧ ∀ g ∈ gs,
        (g.operator = "OR" → ∀ c ∈ g.operands, c.operator = EQ) ∧
        ∃ c ∈ g.operands, c.operator = EQ) := by
  induction gs with
  | nil => intro fb; simp [fallbackLoop]
  | cons g rest ih =>
    intro fb
    by_cases hEq : g.operands.any (fun c => c.operator == EQ) = true
    · have hex : ∃ c ∈ g.operands, c.operator = EQ := by
        simpa [List.any_eq_true] using hEq
      by_cases hor : g.operator = "OR" ∧ g.operands.any (fun c => !(c.operator == EQ)) = true
      · obtain ⟨hO, hany⟩ := hor
        have hnc : ∃ c ∈ g.operands, ¬ c.operator = EQ := by
          simpa [List.any_eq_true] using hany
        simp only [fallbackLoop]
        rw [if_pos hEq, if_pos ⟨hO, hany⟩, ih]
        refine iff_of_false (by simp) ?_
        rintro ⟨-, hall⟩
        obtain ⟨c, hc, hcne⟩ := hnc
        exact hcne ((hall g (by simp)).1 hO c hc)
      · have himp : g.operator = "OR" → ∀ c ∈ g.operands, c.operator = EQ := by
          intro hO c hc
          by_contra hne
          refine hor ⟨hO, ?_⟩
          simp only [List.any_eq_true]
          exact ⟨c, hc, by simpa using hne⟩
        simp only [fallbackLoop]
        rw [if_pos hEq, if_neg hor, ih]
        simp only [List.forall_mem_cons]
        constructor
        · rintro ⟨h1, hall⟩; exact ⟨h1, ⟨himp, hex⟩, hall⟩
        · rintro ⟨h1, -, hall⟩; exact ⟨h1, hall⟩
    · simp only [fallbackLoop]
      rw [if_neg hEq]
      refine iff_of_false (by simp) ?_
      rintro ⟨-, hall⟩
      obtain ⟨c, hc, hceq⟩ := (hall g (by simp)).2
      refine hEq ?_
      simp only [List.any_eq_true]
      exact ⟨c, hc, by simpa using hceq⟩

/-- C5: `FindMany` takes the index-assisted branch exactly when the query is
non-empty and every top-level group satisfies its rule — every group must
contain at least one `=` condition (for an OR group, whose conditions
must then all be `=`, this also rules out the empty condition list) — and
otherwise falls back to a full scan. -/
theorem c5_planner_classification (query : Query) :
    fallbackToFullScan query = false ↔
      (query ≠ [] ∧ ∀ g ∈ query,
        (g.operator = "OR" → ∀ c ∈ g.operands, c.operator = EQ) ∧
        ∃ c ∈ g.operands, c.operator = EQ) := by
  cases query with
  | nil => simp [fallbackToFullScan]
  | cons g rest =>
    rw [fallbackToFullScan, if_pos (by simp)]
    rw [fallbackLoop_eq_false]
    simp

/-!  Search-order machinery for C7 and C8. -/

/-- The posting lists of the tokens that resolve to a non-empty list, in
token order, already split on commas. -/
def nonEmptyPostingLists (textIndex : KV) (collectionName : String)
    (tokens : List String) : List (List String) :=
  tokens.filterMap (fun token =>
    let idsString := posting textIndex collectionName token
    if idsString.length == 0 then none else some (goSplit idsString ','))

/-- One step of the `fts.Search` accumulation: an empty running result is
replaced by the incoming list, otherwise the intersection is taken. -/
def searchStep (matchedIds ids : List String) : List String :=
  if matchedIds.length == 0 then ids else intersection matchedIds ids

/-- The last analyzed token whose posting list is non-empty. -/
def lastNonEmptyToken (textIndex : KV) (collectionName : String)
    (tokens : List String) : Option String :=
  (tokens.filter
    (fun token => !((posting textIndex collectionName token).length == 0))).getLast?

/-- Modelled from the claim (C8's reference reading): the result is the
left-to-right intersection of the non-empty posting lists only. -/
def claimedIntersection (textIndex : KV) (collectionName : String)
    (tokens : List String) : List String :=
  match nonEmptyPostingLists textIndex collectionName tokens with
  | [] => []
  | l :: ls => ls.foldl intersection l

theorem searchLoop_eq_foldl (tIdx : KV) (coll : String) :
    ∀ (tokens : List String) (m : List String),
    searchLoop tIdx coll m tokens =
      (nonEmptyPostingLists tIdx coll tokens).foldl searchStep m := by
  intro tokens
  induction tokens with
  | nil => intro m; simp [searchLoop, nonEmptyPostingLists]
  | cons t rest ih =>
    intro m
    by_cases hp : (posting tIdx coll t).length = 0
    · simp [searchLoop, nonEmptyPostingLists, hp, ih m]
    · by_cases hm : m.length = 0
      · simp [searchLoop, nonEmptyPostingLists, hp, hm, searchStep, ih]
      · simp [searchLoop, nonEmptyPostingLists, hp, hm, searchStep, ih]

theorem searchLoop_all_empty (tIdx : KV) (coll : String) :
    ∀ (tokens : List String),
    (∀ tk ∈ tokens, (posting tIdx coll tk).length = 0) →
    ∀ m, searchLoop tIdx coll m tokens = m := by
  intro tokens
  induction tokens with
  | nil => intro _ m; rfl
  | cons t rest ih =>
    intro h m
    simp only [searchLoop]
    rw [if_pos (by simpa using h t (by simp))]
    exact ih (fun tk htk => h tk (by simp [htk])) m

theorem searchLoop_sublist_last (tIdx : KV) (coll : String) :
    ∀ (tokens : List String) (m : List String) (t : String),
    lastNonEmptyToken tIdx coll tokens = some t →
    List.Sublist (searchLoop tIdx coll m tokens) (goSplit (posting tIdx coll t) ',') := by
  intro tokens
  induction tokens with
  | nil => intro m t h; simp [lastNonEmptyToken] at h
  | cons tok rest ih =>
    intro m t h
    by_cases hp : (posting tIdx coll tok).length = 0
    · have h' : lastNonEmptyToken tIdx coll rest = some t := by
        simpa [lastNonEmptyToken, hp] using h
      simp only [searchLoop]
      rw [if_pos (by simpa using hp)]
      exact ih m t h'
    · cases hrest : rest.filter
          (fun token => !((posting tIdx coll token).length == 0)) with
      | nil =>
        have ht : tok = t := by
          simp [lastNonEmptyToken, hp, hrest] at h
          exact h
        have hall : ∀ tk ∈ rest, (posting tIdx coll tk).length = 0 := by
          intro tk htk
          by_contra hne
          have hmem : tk ∈ rest.filter
              (fun token => !((posting tIdx coll token).length == 0)) :=
            List.mem_filter.mpr ⟨htk, by simpa using hne⟩
          rw [hrest] at hmem
          simp at hmem
        subst ht
        simp only [searchLoop]
        rw [if_neg (by simpa using hp)]
        by_cases hm : m.length = 0
        · rw [if_pos (by simpa using hm)]
          rw [searchLoop_all_empty tIdx coll rest hall]
        · rw [if_neg (by simpa using hm)]
          rw [searchLoop_all_empty tIdx coll rest hall]
          exact List.filter_sublist _
      | cons r rs =>
        have h' : lastNonEmptyToken tIdx coll rest = some t := by
          rw [lastNonEmptyToken] at h ⊢
          rw [List.filter_cons_of_pos (by simpa using hp), hrest,
            List.getLast?_cons_cons] at h
          rw [hrest]
          exact h
        simp only [searchLoop]
        rw [if_neg (by simpa using hp)]
        by_cases hm : m.length = 0
        · rw [if_pos (by simpa using hm)]
          exact ih _ t h'
        · rw [if_neg (by simpa using hm)]
          exact ih _ t h'

/-- The inverted-index contents for the C7 counterexample: two tokens whose
non-empty posting lists hold the same two ids in opposite orders. -/
def orderIdx : KV := [("c:aa", "d1,d2"), ("c:bb", "d2,d1")]

/-- The inverted-index contents for the C8 counterexample: three tokens with
non-empty posting lists whose overall intersection is empty. -/
def restartIdx : KV := [("c:aa", "d1"), ("c:bb", "d2"), ("c:cc", "d1")]

/-- C7 counterexample: the claim states the result order of `Search` follows
the posting list of the FIRST token with a non-empty posting list. Here
both analyzed tokens (`aa`, `bb`) have non-empty posting lists, the first
token's list is `d1,d2`, yet the search returns `d2, d1` — the order of
the SECOND list (Go's `intersection(a, b)` iterates `b`). -/
theorem c7_order_not_first_token :
    ftsSearch idStem orderIdx "c" "aa bb" = ["d2", "d1"]
    ∧ goSplit (posting orderIdx "c" "aa") ',' = ["d1", "d2"]
    ∧ ¬ List.Sublist (ftsSearch idStem orderIdx "c" "aa bb")
        (goSplit (posting orderIdx "c" "aa") ',') :=
  ⟨rfl, rfl, by decide⟩

/-- C7 amended: the ids returned by `fts.Search` appear in the order in
which they occur in the posting list of the LAST analyzed token with a
non-empty posting list (each intersection step keeps the order of its
second, newer argument); documents are then loaded in that id order. -/
theorem c7_amended_order_last_nonempty_token (stem : String → String) (tIdx : KV)
    (coll text t : String)
    (h : lastNonEmptyToken tIdx coll (analyze stem text) = some t) :
    List.Sublist (ftsSearch stem tIdx coll text) (goSplit (posting tIdx coll t) ',') :=
  searchLoop_sublist_last tIdx coll (analyze stem text) [] t h

/-- Witness for the C7 amended theorem on the two-token example. -/
theorem c7_amended_witness :
    List.Sublist (ftsSearch idStem orderIdx "c" "aa bb")
      (goSplit (posting orderIdx "c" "bb") ',') :=
  c7_amended_order_last_nonempty_token idStem orderIdx "c" "aa bb" "bb" rfl

/-- C8 counterexample: the claim states the result equals the intersection
of the non-empty posting lists only. Here the three analyzed tokens have
the non-empty posting lists `d1`, `d2`, `d1`; their intersection is
empty, but the search returns `d1`: after the intersection with `d2`
empties the running result, the `len(matchedIds) == 0` re-check makes the
third list restart it. -/
theorem c8_not_plain_intersection :
    ftsSearch idStem restartIdx "c" "aa bb cc" = ["d1"]
    ∧ claimedIntersection restartIdx "c" (analyze idStem "aa bb cc") = []
    ∧ ftsSearch idStem restartIdx "c" "aa bb cc"
        ≠ claimedIntersection restartIdx "c" (analyze idStem "aa bb cc") :=
  ⟨rfl, rfl, by decide⟩

/-- C8 amended: tokens with an empty or absent posting list are skipped
(hence an all-unknown or all-stop-word query yields the empty result),
and the result is the left-to-right fold of the non-empty posting lists
in which an empty running result is restarted from the next list rather
than staying empty. -/
theorem c8_amended_search_characterization (stem : String → String) (tIdx : KV)
    (coll text : String) :
    ftsSearch stem tIdx coll text =
      (nonEmptyPostingLists tIdx coll (analyze stem text)).foldl searchStep [] :=
  searchLoop_eq_foldl tIdx coll (analyze stem text) []

end ObjectDB
